import Mathlib

/-!
Verification development for the YouTubeRSS exporter (src/youtube-rss.py).

The script is a linear batch pipeline: parse a config document for
(name, playlist id) pairs, resolve the task list from the command line,
flat-fetch each playlist through an external extraction library,
optionally deep-fetch each entry, and write one JSON file per playlist.

Python dictionaries and JSON values are shallowly embedded as the
inductive type JVal below; Python truthiness, dict.get, dict update and
string formatting are modelled by the small helper functions that follow.
Every definition is translated directly from the source; the few places
where the source would raise a TypeError on inputs that never occur are
marked by comments.
-/

/-- JSON-like values: the shapes the extraction library hands to the
script (None, bool, int, str, list, dict). Dicts are association lists
in insertion order with distinct keys, as in Python. -/
inductive JVal where
  | null
  | bool (b : Bool)
  | int (i : Int)
  | str (s : String)
  | list (xs : List JVal)
  | obj (kvs : List (String × JVal))

/-- Python truthiness of a value, used by the many "or"/"if v" tests in
the source: None, False, 0, empty string, empty list and empty dict are
falsy. -/
def truthy : JVal → Bool
  | .null => false
  | .bool b => b
  | .int i => i != 0
  | .str s => s != ""
  | .list xs => !xs.isEmpty
  | .obj kvs => !kvs.isEmpty

/-- First value bound to a key in an association list (Python dicts have
unique keys, so first is the only one). -/
def lookupKV : List (String × JVal) → String → Option JVal
  | [], _ => none
  | (k, v) :: rest, key => if k = key then some v else lookupKV rest key

/-- Key membership test for a dict, as in Python "k in d". -/
def jfind : JVal → String → Option JVal
  | .obj kvs, k => lookupKV kvs k
  | _, _ => none

/-- Python d.get(k): None when the key is absent. Calling .get on a
non-dict raises in Python; such calls never happen in the source. -/
def jget (d : JVal) (k : String) : JVal :=
  (jfind d k).getD .null

/-- Python d.get(k, default): the default only when the key is absent
(a key present with value None still yields None). -/
def jgetD (d : JVal) (k : String) (dflt : JVal) : JVal :=
  (jfind d k).getD dflt

/-- Python "a or b" on values. -/
def pyOr (a b : JVal) : JVal :=
  if truthy a then a else b

/-- Test for None, used to model the "if v is not None" filters. -/
def isNull : JVal → Bool
  | .null => true
  | _ => false

/-- Python str() of a scalar, as used by f-string interpolation in the
source. The source only ever interpolates strings (ids from the
extraction library); container renderings are not needed by any theorem
and are given as the empty string. -/
def toPyStr : JVal → String
  | .str s => s
  | .int i => toString i
  | .bool true => "True"
  | .bool false => "False"
  | .null => "None"
  | .list _ => ""
  | .obj _ => ""

/-- Python dict assignment d[k] = v: update in place when the key
exists, else append at the end. -/
def dictSet (d : JVal) (k : String) (v : JVal) : JVal :=
  match d with
  | .obj kvs =>
    if (lookupKV kvs k).isSome then
      .obj (kvs.map (fun kv => if kv.1 = k then (k, v) else kv))
    else
      .obj (kvs ++ [(k, v)])
  | other => other

/-! ## Character-level string helpers

Python str.strip, str.lower, str.startswith and the config regex are
modelled over the character list of the string, which keeps proofs about
abstract lines tractable. -/

/-- Whitespace characters removed by Python str.strip() (ASCII subset;
the config documents in scope are ASCII). -/
def isSpaceChar (c : Char) : Bool :=
  c == ' ' || c == '\t' || c == '\n' || c == '\r' || c == '\x0b' || c == '\x0c'

/-- Python str.strip(): drop leading and trailing whitespace. -/
def stripChars (cs : List Char) : List Char :=
  ((cs.dropWhile isSpaceChar).reverse.dropWhile isSpaceChar).reverse

/-- Python str.lower() (the characters in scope are ASCII). -/
def lowerChars (cs : List Char) : List Char :=
  cs.map Char.toLower

/-- Python str.startswith(p) as a character-list test. -/
def startsWithChars : List Char → List Char → Bool
  | [], _ => true
  | _ :: _, [] => false
  | p :: ps, c :: cs => p == c && startsWithChars ps cs

/-- Stripped character list of a raw config line (line = raw_line.strip()). -/
def lineOf (raw : String) : List Char :=
  stripChars raw.toList

/-- Head of a character list, with a space for the empty list; a
non-empty line starts with a hash exactly when its head is the hash. -/
def headOrSpace : List Char → Char
  | [] => ' '
  | c :: _ => c

/-! ## Config parser (parse_playlists_from_requirements_md, source lines 9-50)

The regex RE_PLAYLIST_LINE matches a whole (already stripped) line of
the form name = id: the lazy name group takes everything up to the first
equals sign (it cannot contain a hash, an equals sign or a newline and
must be non-empty after trimming), and the id group is a single maximal
run of characters from [A-Za-z0-9_-] followed only by whitespace. -/

/-- Characters allowed in a playlist id by RE_PLAYLIST_LINE. -/
def isIdChar (c : Char) : Bool :=
  c.isAlpha || c.isDigit || c == '_' || c == '-'

/-- Split a character list at the first equals sign; none when there is
no equals sign at all. -/
def splitAtFirstEq : List Char → Option (List Char × List Char)
  | [] => none
  | c :: cs =>
    if c = '=' then some ([], cs)
    else
      match splitAtFirstEq cs with
      | some (a, b) => some (c :: a, b)
      | none => none

/-- Matching a stripped line against RE_PLAYLIST_LINE, returning the
trimmed name and the id. Because the name class excludes the equals
sign, the lazy name group always ends just before the first equals sign
of the line, and the id part after it must trim to one non-empty run of
id characters (a second equals sign or an inner space makes the match
fail). The source then strips group 1, which the trim here performs. -/
def rePlaylistLineMatch (cs : List Char) : Option (String × String) :=
  match splitAtFirstEq cs with
  | none => none
  | some (nameRaw, idRaw) =>
    let name := stripChars nameRaw
    let pid := stripChars idRaw
    if name.isEmpty then none
    else if nameRaw.contains '#' then none
    else if nameRaw.contains '\n' then none
    else if pid.isEmpty then none
    else if !(pid.all isIdChar) then none
    else some (String.mk name, String.mk pid)

/-- Character list of the section marker, compared against lowered
stripped lines. -/
def hdrChars : List Char := "# playlists".toList

/-- Character list of the top-level header marker. -/
def hashSpace : List Char := "# ".toList

/-- Loop of parse_playlists_from_requirements_md over the remaining
lines, with the in_section flag. Hitting a line that starts with a hash
and a space and is not itself the section marker breaks the loop. -/
def parseGo : Bool → List String → List (String × String)
  | _, [] => []
  | inSection, raw :: rest =>
    if lowerChars (lineOf raw) = hdrChars then parseGo true rest
    else if !inSection then parseGo false rest
    else if startsWithChars hashSpace (lineOf raw) then []
    else if lineOf raw = [] then parseGo true rest
    else if headOrSpace (lineOf raw) = '#' then parseGo true rest
    else
      match rePlaylistLineMatch (lineOf raw) with
      | some p => p :: parseGo true rest
      | none => parseGo true rest

/-- Source function parse_playlists_from_requirements_md, with the file
replaced by the list of its lines (a missing file gives the empty list
of lines and hence the empty result, as in the source). -/
def parse_playlists_from_requirements_md (doc : List String) : List (String × String) :=
  parseGo false doc

/-! ## normalize_playlist_input (source lines 53-57) -/

/-- Source function normalize_playlist_input: a full URL passes through,
anything else is treated as a bare playlist id. -/
def normalize_playlist_input (arg : String) : String :=
  if startsWithChars "http://".toList arg.toList || startsWithChars "https://".toList arg.toList then arg
  else "https://www.youtube.com/playlist?list=" ++ arg

/-! ## fetch_playlist_flat options (source lines 60-83)

The network call itself is external; what the source controls is the
options dictionary passed to the extraction library. -/

/-- Options dictionary built by fetch_playlist_flat (the client argument
is accepted but never used by the source function). -/
def fetch_playlist_flat_opts (client : String) : List (String × JVal) :=
  let _ := client
  [("ignoreerrors", .bool true),
   ("quiet", .bool true),
   ("skip_download", .bool true),
   ("extract_flat", .bool true),
   ("no_warnings", .bool true),
   ("extract_flat_playlist", .bool true),
   ("playlist_items", .str "1-1000"),
   ("extract_info", .list
     [.str "id", .str "title", .str "channel", .str "uploader", .str "uploader_id",
      .str "channel_id", .str "uploader_url", .str "channel_url", .str "webpage_url",
      .str "thumbnail", .str "description", .str "tags"])]

/-- Semantics of the playlist_items range "1-1000" as honoured by the
extraction collaborator (documented option: enumerate only items 1
through 1000 of the playlist). -/
def applyPlaylistItemsRange (entries : List JVal) : List JVal :=
  entries.take 1000

/-! ## format_duration (source lines 150-157) -/

/-- Two-digit zero padding, as the 02d format specifier renders the
minute and second fields (which are always below 60 here). -/
def pad2 (n : Nat) : String :=
  if n < 10 then "0" ++ toString n else toString n

/-- Positive branch of format_duration: divmod by 60 twice (h and the
reassigned m are n / 60 / 60 and n / 60 % 60), then either H:MM:SS or
M:SS. -/
def fmtPos (n : Nat) : String :=
  if n / 60 / 60 != 0 then
    toString (n / 60 / 60) ++ ":" ++ pad2 (n / 60 % 60) ++ ":" ++ pad2 (n % 60)
  else toString (n / 60 % 60) ++ ":" ++ pad2 (n % 60)

/-- Source function format_duration. The guard "not seconds or
seconds <= 0" sends None, zero and negative values to 0:00. The source
annotation says int; callers can also pass None (via dict.get). A truthy
value of another type would raise on the comparison in Python and never
occurs; True behaves as the integer 1. -/
def format_duration (seconds : JVal) : String :=
  if !(truthy seconds) then "0:00"
  else
    match seconds with
    | .int s => if s ≤ 0 then "0:00" else fmtPos s.toNat
    | .bool _ => fmtPos 1
    | _ => "0:00"

/-! ## best_thumbnail and the URL builders (source lines 160-180) -/

/-- Numeric reading of a width or height value; Python bools are ints.
A non-numeric value would raise on multiplication in Python and never
occurs (the claim treats missing dimensions as 0, which dict.get with
default 0 gives). -/
def jnumD : JVal → Int
  | .int i => i
  | .bool b => if b then 1 else 0
  | _ => 0

/-- Area key used to rank thumbnail candidates:
t.get("width", 0) * t.get("height", 0). -/
def area (t : JVal) : Int :=
  jnumD (jgetD t "width" (.int 0)) * jnumD (jgetD t "height" (.int 0))

/-- Python max over a non-empty list with the area key: the first
candidate of maximal area is kept (a later candidate replaces the
current best only when strictly larger). -/
def firstMax : JVal → List JVal → JVal
  | best, [] => best
  | best, t :: ts => firstMax (if area t > area best then t else best) ts

/-- Source function best_thumbnail: info.get("thumbnails") or [] and,
when non-empty, the url of the maximal candidate (default empty
string). The result is the value stored under url, as the source
returns it unchanged. -/
def best_thumbnail (info : JVal) : JVal :=
  match jget info "thumbnails" with
  | .list (t :: ts) => jgetD (firstMax t ts) "url" (.str "")
  | _ => .str ""

/-- Source function build_uploader_url. -/
def build_uploader_url (info : JVal) : String :=
  let uid := jget info "uploader_id"
  if truthy uid then "https://www.youtube.com/channel/" ++ toPyStr uid else ""

/-- Source function build_channel_url. -/
def build_channel_url (info : JVal) : String :=
  let cid := jget info "channel_id"
  if truthy cid then "https://www.youtube.com/channel/" ++ toPyStr cid else ""

/-! ## save_json and clean_dict (source lines 115-147) -/

/-- Allow-listed field set of clean_dict, in the order written in the
source (the Python set literal is used only for membership tests). -/
def allowedFields : List String :=
  ["id", "title", "fulltitle", "channel", "uploader", "uploader_id",
   "channel_id", "uploader_url", "channel_url", "original_url", "webpage_url",
   "thumbnail", "upload_date", "duration", "duration_string", "description",
   "categories", "tags", "entries"]

/-- Thumbnail branch of clean_dict: a list-valued thumbnail is replaced
by the url of the highest-area candidate (Python sorted is stable, so
descending sort followed by taking the head picks the first candidate of
maximal area, as firstMax does); an empty list leaves the key out
entirely. -/
def cleanThumb (v : JVal) : List (String × JVal) :=
  match v with
  | .list [] => []
  | .list (t :: ts) => [("thumbnail", jgetD (firstMax t ts) "url" (.str ""))]
  | _ => []

/-- Shape test used by the isinstance(v, list) check. -/
def isListV : JVal → Bool
  | .list _ => true
  | _ => false

mutual

/-- Source function clean_dict inside save_json: keep only allow-listed
keys; recursively clean truthy entries lists, dropping falsy elements;
reduce a list-valued thumbnail to the best url. Every other value,
including None and empty values, is copied through unchanged. A non-dict
argument is returned unchanged (clean_dict is only applied to dicts; a
truthy non-list entries value would raise on iteration in Python and is
copied through here). -/
def cleanDict : JVal → JVal
  | .obj kvs => .obj (cleanFields kvs)
  | v => v

/-- Field loop of clean_dict over the items of the dict. -/
def cleanFields : List (String × JVal) → List (String × JVal)
  | [] => []
  | (k, v) :: rest =>
    if k ∈ allowedFields then
      if k = "entries" ∧ truthy v then
        (k, cleanEntriesVal v) :: cleanFields rest
      else if k = "thumbnail" ∧ isListV v then
        cleanThumb v ++ cleanFields rest
      else (k, v) :: cleanFields rest
    else cleanFields rest

/-- Entries branch of clean_dict: clean every truthy element. -/
def cleanEntriesVal : JVal → JVal
  | .list xs => .list (cleanList xs)
  | v => v

/-- List comprehension [clean_dict(e) for e in v if e]. -/
def cleanList : List JVal → List JVal
  | [] => []
  | e :: es => (if truthy e then [cleanDict e] else []) ++ cleanList es

end

/-- Source function save_json without the filesystem: it returns the
file-name stem (cleaned id, or the word playlist when falsy) together
with the cleaned dictionary that json.dump serializes. -/
def save_json (info : JVal) : String × JVal :=
  let cleaned := cleanDict info
  let idv := jget cleaned "id"
  let stem := if truthy idv then toPyStr idv else "playlist"
  (stem, cleaned)

/-! ## minimize_playlist (source lines 212-259) -/

/-- Reading of info.get("entries") or [] followed by iteration: absent,
None and empty give the empty list (a truthy non-list value would raise
on iteration in Python and never occurs). Shared by minimize_playlist
and the batch driver. -/
def rawEntriesList (info : JVal) : List JVal :=
  match jget info "entries" with
  | .list xs => xs
  | _ => []

/-- Python dict comprehension dropping pairs whose value is None. -/
def dropNullFields (kvs : List (String × JVal)) : List (String × JVal) :=
  kvs.filter (fun kv => !(isNull kv.2))

/-- Entry dictionary literal built by minimize_playlist for one raw
entry, in source order; fulltitle reuses the title and categories and
tags are forced empty in fast mode. -/
def minimizeFastEntryFields (e : JVal) : List (String × JVal) :=
  [("id", jgetD e "id" (.str "")),
   ("title", jgetD e "title" (.str "")),
   ("fulltitle", jgetD e "title" (.str "")),
   ("channel", jgetD e "channel" (.str "")),
   ("uploader", jgetD e "uploader" (.str "")),
   ("uploader_id", jgetD e "uploader_id" (.str "")),
   ("channel_id", jgetD e "channel_id" (.str "")),
   ("uploader_url", .str (build_uploader_url e)),
   ("channel_url", .str (build_channel_url e)),
   ("original_url", jgetD e "url" (.str "")),
   ("webpage_url", jgetD e "url" (.str "")),
   ("thumbnail", best_thumbnail e),
   ("upload_date", jgetD e "upload_date" (.str "")),
   ("duration", jgetD e "duration" (.int 0)),
   ("duration_string", .str (format_duration (jgetD e "duration" (.int 0)))),
   ("description", jgetD e "description" (.str "")),
   ("categories", .list []),
   ("tags", .list [])]

/-- Entries built by minimize_playlist: the loop keeps exactly the
truthy raw entries (if e skips None, and with it every other falsy
value) in source order and drops None-valued fields from each built
entry. -/
def minimizedEntries (info : JVal) : List JVal :=
  ((rawEntriesList info).filter truthy).map
    (fun e => JVal.obj (dropNullFields (minimizeFastEntryFields e)))

/-- Playlist dictionary literal built by minimize_playlist, in source
order. -/
def playlistTopFields (info : JVal) (entries : List JVal) : List (String × JVal) :=
  [("id", jgetD info "id" (.str "")),
   ("title", jgetD info "title" (.str "")),
   ("fulltitle", jgetD info "title" (.str "")),
   ("channel", jgetD info "channel" (.str "")),
   ("uploader", jgetD info "uploader" (.str "")),
   ("uploader_id", jgetD info "uploader_id" (.str "")),
   ("channel_id", jgetD info "channel_id" (.str "")),
   ("uploader_url", .str (build_uploader_url info)),
   ("channel_url", .str (build_channel_url info)),
   ("thumbnail", best_thumbnail info),
   ("description", jgetD info "description" (.str "")),
   ("categories", jgetD info "categories" (.list [])),
   ("tags", jgetD info "tags" (.list [])),
   ("entries", .list entries)]

/-- Source function minimize_playlist: build the minimized entries, the
playlist literal, and drop None-valued fields at the playlist level. -/
def minimize_playlist (info : JVal) : JVal :=
  JVal.obj (dropNullFields (playlistTopFields info (minimizedEntries info)))

/-! ## Command-line task resolution (main, source lines 280-295) -/

/-- Process exits raised before the batch loop runs: parser.error exits
with status 2 after printing a usage message; raise SystemExit(message)
exits with status 1 after printing the message (here the message names
the req path and asks for a Playlists section). -/
inductive CliExit where
  | usageError
  | fatalNoPlaylists (req : String)

/-- Exit status of each early exit; both are non-zero. -/
def CliExit.code : CliExit → Nat
  | .usageError => 2
  | .fatalNoPlaylists _ => 1

/-- Playlist id used as the report name for a single positional
playlist: the part after list= up to the first ampersand, or the
argument itself when list= does not occur. -/
def extractPid (p : String) : String :=
  match p.splitOn "list=" with
  | [] => p
  | [_] => p
  | _ :: rest =>
    ((String.intercalate "list=" rest).splitOn "&").headD ""

/-- Task-list resolution of main: with all set, the parsed config list
is required to be non-empty (the positional argument, if any, is never
consulted); otherwise a truthy positional playlist becomes a single
task named by its extracted id; otherwise parser.error is raised. -/
def resolve_tasks (all : Bool) (playlist : Option String) (req : String)
    (cfg : List (String × String)) : Except CliExit (List (String × String)) :=
  if all then
    if cfg.isEmpty then .error (.fatalNoPlaylists req) else .ok cfg
  else
    match playlist with
    | some p => if p ≠ "" then .ok [(extractPid p, p)] else .error .usageError
    | none => .error .usageError

/-! ## Batch driver (main, source lines 297-345)

The two collaborator calls are oracles; the enrichment loop additionally
records which video ids it deep-fetched and at which indices it printed
a progress notice. A user cancellation is modelled, as a cooperative
signal, by the index of the enrichment iteration at which the
KeyboardInterrupt arrives. -/

/-- Collaborator oracles: the result of fetch_playlist_flat for a URL,
and the result of fetch_video_metadata for a video id or url. -/
structure Oracles where
  flat : String → JVal
  deep : JVal → JVal

/-- Observable outcome of the enrichment loop: the enriched entry list
so far, the video ids that were deep-fetched, the 1-based indices at
which a progress notice was printed, and whether a cancellation stopped
the loop. -/
structure EnrichOut where
  entries : List JVal
  fetched : List JVal
  printed : List Nat
  stopped : Bool

/-- Fetch key of an entry in the enrichment loop:
entry.get("id") or entry.get("url"). -/
def entryVid (e : JVal) : JVal :=
  pyOr (jget e "id") (jget e "url")

/-- Enrichment loop of main (source lines 314-332): for each entry, the
id (or url) is the fetch key; entries without one are kept as they are
without a fetch and without a progress check (the continue statement
skips both); otherwise the deep record replaces the entry exactly when
it is truthy and carries a truthy description, and a progress notice is
printed at indices divisible by 25. A cancellation signal at iteration
cut stops the loop with the entries enriched so far. -/
def enrichGo (deep : JVal → JVal) (cut : Option Nat) : Nat → List JVal → EnrichOut
  | _, [] => ⟨[], [], [], false⟩
  | idx, e :: rest =>
    if cut = some idx then ⟨[], [], [], true⟩
    else
      let vid := entryVid e
      if !(truthy vid) then
        let r := enrichGo deep cut (idx + 1) rest
        ⟨e :: r.entries, r.fetched, r.printed, r.stopped⟩
      else
        let full := deep vid
        let keep := if truthy full && truthy (jget full "description") then full else e
        let r := enrichGo deep cut (idx + 1) rest
        ⟨keep :: r.entries, vid :: r.fetched,
          (if idx % 25 = 0 then idx :: r.printed else r.printed), r.stopped⟩

/-- Observable outcome of the batch loop: the files written (stem and
cleaned JSON, in order), the per-task report lines, and the success
counter. -/
structure BatchOut where
  saved : List (String × JVal)
  reports : List String
  totalSaved : Nat

/-- Batch loop of main over the resolved tasks. For each task: normalize
the input, flat-fetch, and on a falsy result record a failure and move
on. Otherwise, unless fast mode is set, run the enrichment loop; when it
is stopped by a cancellation the handler prints its message, assigns the
partial entries into the (about to be discarded) playlist dict when they
are non-empty, and the break abandons the whole batch loop, so no save
happens and no further task runs. Otherwise the enriched entries are
assigned and the playlist is saved as JSON. The interrupt argument gives
the task index and enrichment iteration at which a cancellation signal
arrives, if any. -/
def runGo (fast : Bool) (o : Oracles) (interrupt : Option (Nat × Nat)) :
    Nat → List (String × String) → BatchOut
  | _, [] => ⟨[], [], 0⟩
  | t, (name, idOrUrl) :: rest =>
    let url := normalize_playlist_input idOrUrl
    let info := o.flat url
    if !(truthy info) then
      let r := runGo fast o interrupt (t + 1) rest
      ⟨r.saved, ("✗ " ++ name ++ ": failed to fetch") :: r.reports, r.totalSaved⟩
    else
      let cut : Option Nat :=
        match interrupt with
        | some (ti, k) => if ti = t then some k else none
        | none => none
      let afterEnrich : Option JVal :=
        if fast then some info
        else
          let r := enrichGo o.deep cut 1 (rawEntriesList info)
          if r.stopped then none
          else some (dictSet info "entries" (.list r.entries))
      match afterEnrich with
      | none => ⟨[], [], 0⟩
      | some info2 =>
        let sj := save_json info2
        let count := (rawEntriesList info2).length
        let mode := if fast then "FAST" else "FULL"
        let path := "data/" ++ sj.1 ++ ".json"
        let report := "✓ " ++ name ++ ": " ++ toString count ++ " items (" ++ mode ++ ") → " ++ path
        let r := runGo fast o interrupt (t + 1) rest
        ⟨sj :: r.saved, report :: r.reports, r.totalSaved + 1⟩

/-- Whole batch run of main after task resolution. -/
def runBatch (fast : Bool) (o : Oracles) (interrupt : Option (Nat × Nat))
    (tasks : List (String × String)) : BatchOut :=
  runGo fast o interrupt 0 tasks

/-! ## Specification-side definitions

These definitions restate, in the words of the specification and the
claims, what the loops above are claimed to do; the theorems below
compare them with the source translations. -/

/-- A line whose stripped, lowered form is the section marker. -/
def isHeaderLine (raw : String) : Bool :=
  decide (lowerChars (lineOf raw) = hdrChars)

/-- A line that ends the Playlists section: a top-level header that is
not itself the section marker (the amended reading of the claim, which
matches the break condition in the source). -/
def isStopLine (raw : String) : Bool :=
  !(isHeaderLine raw) && startsWithChars hashSpace (lineOf raw)

/-- Specification-side body of the Playlists section: the lines up to
the first ending header, each stripped and matched against the line
pattern, keeping the matches in order. -/
def specSection (lines : List String) : List (String × String) :=
  (lines.takeWhile (fun raw => !(isStopLine raw))).filterMap
    (fun raw => rePlaylistLineMatch (lineOf raw))

/-- Specification-side config parse: find the first section marker and
collect the matching lines of its section. -/
def specParsePlaylists (doc : List String) : List (String × String) :=
  match doc.dropWhile (fun raw => !(isHeaderLine raw)) with
  | [] => []
  | _ :: rest => specSection rest

/-- Claim-literal config parse, following the claim wording exactly:
the pairs come from the lines between the header and the next line
prefixed by a hash and a space, with no exception for a repeated
section marker. -/
def claimParsePlaylists (doc : List String) : List (String × String) :=
  match doc.dropWhile (fun raw => !(isHeaderLine raw)) with
  | [] => []
  | _ :: rest =>
    (rest.takeWhile (fun raw => !(startsWithChars hashSpace (lineOf raw)))).filterMap
      (fun raw => rePlaylistLineMatch (lineOf raw))

/-- Specification-side enriched entry list: each entry with a truthy
fetch key is replaced by the deep record exactly when that record is
truthy and carries a truthy description; entries without a fetch key
are kept unchanged. -/
def specEnriched (deep : JVal → JVal) (entries : List JVal) : List JVal :=
  entries.map (fun e =>
    let vid := entryVid e
    if truthy vid then
      let full := deep vid
      if truthy full && truthy (jget full "description") then full else e
    else e)

/-- Specification-side fetch log: exactly the truthy fetch keys, in
entry order. -/
def specFetched (entries : List JVal) : List JVal :=
  entries.filterMap (fun e => if truthy (entryVid e) then some (entryVid e) else none)

/-- Specification-side progress notices: the 1-based indices divisible
by 25 whose entry had a truthy fetch key (the continue statement in the
source skips the notice for entries without one). -/
def specPrinted : Nat → List JVal → List Nat
  | _, [] => []
  | idx, e :: es =>
    (if truthy (entryVid e) && idx % 25 == 0 then [idx] else []) ++ specPrinted (idx + 1) es

/-- Record-level check that no field of a dict holds None. -/
def objNoNull : JVal → Bool
  | .obj kvs => kvs.all (fun kv => !(isNull kv.2))
  | _ => true

/-- Record-level check that every key of a dict is allow-listed. -/
def allowedTopKeys : JVal → Bool
  | .obj kvs => kvs.all (fun kv => allowedFields.contains kv.1)
  | _ => true

/-- Check on the value found under the entries key: when it is a list,
every element is a record with only allow-listed keys. -/
def entriesValOK : Option JVal → Prop
  | some (.list es) => es.all allowedTopKeys = true
  | _ => True

/-- First element of the entries list of a playlist record. -/
def firstEntry (v : JVal) : JVal :=
  match jget v "entries" with
  | .list (e :: _) => e
  | _ => .null

/-! ## Concrete fixtures for the counterexamples and evaluations -/

/-- Flat playlist with three entries, used for the cancellation run. -/
def c1Playlist : JVal :=
  .obj [("id", .str "PL1"), ("title", .str "T"),
        ("entries", .list [.obj [("id", .str "v1")],
                           .obj [("id", .str "v2")],
                           .obj [("id", .str "v3")]])]

/-- Oracles for the cancellation run: the flat fetch always succeeds
with c1Playlist and every deep fetch returns a record with a non-empty
description. -/
def c1Oracles : Oracles :=
  ⟨fun _ => c1Playlist, fun _ => .obj [("id", .str "v"), ("description", .str "d")]⟩

/-- Flat entry carrying tags and categories, as a flat fetch may return
them; it has no fulltitle field. -/
def c2Entry : JVal :=
  .obj [("id", .str "v1"), ("title", .str "t"),
        ("tags", .list [.str "x"]), ("categories", .list [.str "c"])]

/-- Flat playlist for the fast-mode run. -/
def c2Playlist : JVal :=
  .obj [("id", .str "PL1"), ("title", .str "T"), ("entries", .list [c2Entry])]

/-- Oracles for the fast-mode run (the deep oracle is never consulted
in fast mode). -/
def c2Oracles : Oracles :=
  ⟨fun _ => c2Playlist, fun _ => .obj []⟩

/-- Config document whose Playlists section is interrupted by a second,
differently-cased section marker. -/
def c5doc : List String :=
  ["# Playlists", "A = PL1", "# PLAYLISTS", "B = PL2"]

/-- Config document of the worked example in the claim. -/
def c5exampleDoc : List String :=
  ["# Requirements", "some prose", "# Playlists",
   "AEC = PL123", "PhD Research (assorted) = PL456", "not a pair",
   "# Other", "X = PL999"]

/-- Raw playlist record whose serialized form keeps an empty and a None
value, and whose raw entries contain an empty (non-None) record. -/
def c6bad : JVal :=
  .obj [("id", .str "p"), ("description", .str ""), ("title", .null)]

/-- Entry without an id and without a url. -/
def noVidEntry : JVal :=
  .obj [("title", .str "x")]

/-- Deep oracle that always returns a record with a non-empty
description. -/
def richDeep : JVal → JVal :=
  fun _ => .obj [("id", .str "v"), ("description", .str "d")]

/-! ## Theorems -/

/-- C9: playlist-input normalization returns an already-qualified URL
unchanged (a string with the http or https scheme prefix, which is what
the source tests for) and expands anything else as a bare identifier;
in particular PLxyz expands to the canonical playlist URL. -/
theorem C9_normalize_playlist_input (s : String) :
    ((startsWithChars "http://".toList s.toList = true
        ∨ startsWithChars "https://".toList s.toList = true) →
      normalize_playlist_input s = s)
    ∧ (startsWithChars "http://".toList s.toList = false →
        startsWithChars "https://".toList s.toList = false →
        normalize_playlist_input s = "https://www.youtube.com/playlist?list=" ++ s)
    ∧ normalize_playlist_input "PLxyz" = "https://www.youtube.com/playlist?list=PLxyz" := by
  refine ⟨?_, ?_, by decide⟩
  · intro h
    unfold normalize_playlist_input
    rcases h with h | h <;> rw [h] <;> simp
  · intro h1 h2
    unfold normalize_playlist_input
    rw [h1, h2]
    simp

/-- Witness for C9 at a qualified URL and at a bare identifier. -/
theorem C9_normalize_playlist_input_witness :
    normalize_playlist_input "http://example.com/a" = "http://example.com/a"
    ∧ normalize_playlist_input "PL42" = "https://www.youtube.com/playlist?list=" ++ "PL42" :=
  ⟨(C9_normalize_playlist_input "http://example.com/a").1 (Or.inl (by decide)),
   (C9_normalize_playlist_input "PL42").2.1 (by decide) (by decide)⟩

/-- C10: the options dictionary built for every flat fetch carries
playlist_items = 1-1000, and under the collaborator reading of that
range the enumeration keeps at most the first 1000 items, so a longer
playlist is truncated. -/
theorem C10_playlist_items_limit (client : String) (entries : List JVal) :
    lookupKV (fetch_playlist_flat_opts client) "playlist_items" = some (.str "1-1000")
    ∧ applyPlaylistItemsRange entries = entries.take 1000
    ∧ (applyPlaylistItemsRange entries).length ≤ 1000
    ∧ (1000 < entries.length → applyPlaylistItemsRange entries ≠ entries) := by
  refine ⟨rfl, rfl, ?_, ?_⟩
  · simp [applyPlaylistItemsRange]
  · intro hlen heq
    have := congrArg List.length heq
    simp [applyPlaylistItemsRange] at this
    omega

/-- Witness for C10 at a playlist of 1001 entries. -/
theorem C10_playlist_items_limit_witness :
    applyPlaylistItemsRange (List.replicate 1001 JVal.null) ≠ List.replicate 1001 JVal.null := by
  have h : 1000 < (List.replicate 1001 JVal.null).length := by
    rw [List.length_replicate]
    omega
  exact (C10_playlist_items_limit "web" (List.replicate 1001 JVal.null)).2.2.2 h

/-- C3, corrected: supplying neither a positional playlist nor the all
flag is a usage error (exit status 2); an all run over an empty parsed
config is a fatal error (exit status 1) raised before any task is
processed; but supplying both is not an error: the all branch wins and
the positional argument is ignored. -/
theorem C3_resolve_tasks (p : Option String) (req : String) (cfg : List (String × String)) :
    resolve_tasks false none req cfg = .error .usageError
    ∧ CliExit.usageError.code ≠ 0
    ∧ resolve_tasks true p req [] = .error (.fatalNoPlaylists req)
    ∧ (CliExit.fatalNoPlaylists req).code ≠ 0
    ∧ (cfg ≠ [] → resolve_tasks true p req cfg = .ok cfg) := by
  refine ⟨rfl, by decide, rfl, by simp [CliExit.code], ?_⟩
  intro h
  cases cfg with
  | nil => exact absurd rfl h
  | cons a l => rfl

/-- Witness for C3 with a non-empty config. -/
theorem C3_resolve_tasks_witness :
    resolve_tasks true none "requirements.md" [("A", "PL1")] = .ok [("A", "PL1")] :=
  (C3_resolve_tasks none "requirements.md" [("A", "PL1")]).2.2.2.2 (by simp)

/-- Counterexample for C3 as stated: supplying both the positional
playlist and the all flag resolves to the config tasks without any
usage error. -/
theorem C3_counterexample :
    resolve_tasks true (some "PLabc") "requirements.md" [("A", "PL1")] = .ok [("A", "PL1")] := rfl

/-- Hour branch of fmtPos, rewritten with a single division by 3600. -/
theorem fmtPos_of_ge (n : Nat) (h : 3600 ≤ n) :
    fmtPos n = toString (n / 3600) ++ ":" ++ pad2 (n % 3600 / 60) ++ ":" ++ pad2 (n % 60) := by
  have h1 : n / 60 / 60 = n / 3600 := by
    rw [Nat.div_div_eq_div_mul]
  have h2 : n / 60 % 60 = n % 3600 / 60 := by
    have h3 := (Nat.mod_mul_right_div_self n 60 60).symm
    norm_num at h3
    exact h3
  have h4 : n / 3600 ≠ 0 := by
    have h5 : 3600 / 3600 ≤ n / 3600 := Nat.div_le_div_right h
    omega
  unfold fmtPos
  rw [h1, h2]
  simp [h4]

/-- Minute branch of fmtPos for inputs below one hour. -/
theorem fmtPos_of_lt (n : Nat) (h : n < 3600) :
    fmtPos n = toString (n / 60) ++ ":" ++ pad2 (n % 60) := by
  have h1 : n / 60 / 60 = 0 := by
    rw [Nat.div_div_eq_div_mul]
    exact Nat.div_eq_of_lt h
  have h2 : n / 60 % 60 = n / 60 := by
    apply Nat.mod_eq_of_lt
    omega
  unfold fmtPos
  rw [h1, h2]
  simp

/-- C4: duration formatting yields H:MM:SS for at least one hour, M:SS
below one hour, and 0:00 for non-positive or missing values; the minute
and second fields are zero-padded to exactly two digits. -/
theorem C4_format_duration (d : Int) :
    (3600 ≤ d → format_duration (.int d)
        = toString (d.toNat / 3600) ++ ":" ++ pad2 (d.toNat % 3600 / 60) ++ ":" ++ pad2 (d.toNat % 60))
    ∧ (0 ≤ d → d < 3600 → format_duration (.int d)
        = toString (d.toNat / 60) ++ ":" ++ pad2 (d.toNat % 60))
    ∧ (d ≤ 0 → format_duration (.int d) = "0:00")
    ∧ format_duration .null = "0:00"
    ∧ (∀ n : Nat, n < 60 → (pad2 n).length = 2) := by
  refine ⟨?_, ?_, ?_, rfl, by decide⟩
  · intro h
    have hne : d ≠ 0 := by omega
    have hle : ¬ d ≤ 0 := by omega
    simp [format_duration, truthy, hne, hle]
    exact fmtPos_of_ge d.toNat (by omega)
  · intro h0 h1
    by_cases hz : d = 0
    · subst hz
      decide
    · have hle : ¬ d ≤ 0 := by omega
      simp [format_duration, truthy, hz, hle]
      exact fmtPos_of_lt d.toNat (by omega)
  · intro h
    by_cases hz : d = 0
    · subst hz
      decide
    · simp [format_duration, truthy, hz, h]

/-- Witness for C4 at 3725 seconds, 45 seconds and a negative value. -/
theorem C4_format_duration_witness :
    format_duration (.int 3725)
      = toString ((3725 : Int).toNat / 3600) ++ ":" ++ pad2 ((3725 : Int).toNat % 3600 / 60)
          ++ ":" ++ pad2 ((3725 : Int).toNat % 60)
    ∧ format_duration (.int 45)
      = toString ((45 : Int).toNat / 60) ++ ":" ++ pad2 ((45 : Int).toNat % 60)
    ∧ format_duration (.int (-5)) = "0:00" :=
  ⟨(C4_format_duration 3725).1 (by decide),
   (C4_format_duration 45).2.1 (by decide) (by decide),
   (C4_format_duration (-5)).2.2.1 (by decide)⟩

/-- The fold implementing Python max keeps an element of the candidate
list (or the seed) whose area bounds the seed and every candidate. -/
theorem firstMax_spec (ts : List JVal) :
    ∀ best : JVal,
      (firstMax best ts = best ∨ firstMax best ts ∈ ts)
      ∧ area best ≤ area (firstMax best ts)
      ∧ ∀ u ∈ ts, area u ≤ area (firstMax best ts) := by
  induction ts with
  | nil =>
    intro best
    exact ⟨Or.inl rfl, le_refl _, by simp⟩
  | cons t ts ih =>
    intro best
    simp only [firstMax]
    obtain ⟨hmem, hle, hall⟩ := ih (if area t > area best then t else best)
    have hseed : area best ≤ area (if area t > area best then t else best) := by
      by_cases hc : area t > area best
      · simp [hc]
        omega
      · simp [hc]
    have htop : area t ≤ area (if area t > area best then t else best) := by
      by_cases hc : area t > area best
      · simp [hc]
      · simp [hc]
        omega
    refine ⟨?_, le_trans hseed hle, ?_⟩
    · rcases hmem with h | h
      · rw [h]
        by_cases hc : area t > area best <;> simp [hc]
      · exact Or.inr (List.mem_cons_of_mem _ h)
    · intro u hu
      rcases List.mem_cons.mp hu with rfl | hu
      · exact le_trans htop hle
      · exact hall u hu

/-- C8: over any list of thumbnail candidates (with missing width or
height read as 0 by the area key), best_thumbnail returns the empty
string for the empty list and otherwise the url field of a candidate of
maximal area. -/
theorem C8_best_thumbnail (ts : List JVal) :
    (ts = [] → best_thumbnail (.obj [("thumbnails", .list ts)]) = .str "")
    ∧ (ts ≠ [] → ∃ t, t ∈ ts
        ∧ best_thumbnail (.obj [("thumbnails", .list ts)]) = jgetD t "url" (.str "")
        ∧ ∀ u ∈ ts, area u ≤ area t) := by
  constructor
  · rintro rfl
    rfl
  · intro hne
    match ts, hne with
    | t :: ts, _ =>
      have hbt : best_thumbnail (.obj [("thumbnails", .list (t :: ts))])
          = jgetD (firstMax t ts) "url" (.str "") := by
        simp [best_thumbnail, jget, jfind, lookupKV]
      obtain ⟨hmem, hle, hall⟩ := firstMax_spec ts t
      refine ⟨firstMax t ts, ?_, hbt, ?_⟩
      · rcases hmem with h | h
        · rw [h]
          exact List.mem_cons_self _ _
        · exact List.mem_cons_of_mem _ h
      · intro u hu
        rcases List.mem_cons.mp hu with rfl | hu
        · exact hle
        · exact hall u hu

/-- Witness for C8 at the empty candidate list and at a two-candidate
list. -/
theorem C8_best_thumbnail_witness :
    best_thumbnail (.obj [("thumbnails", .list [])]) = .str ""
    ∧ ∃ t, t ∈ [JVal.obj [("url", .str "u1"), ("width", .int 2), ("height", .int 3)],
                JVal.obj [("url", .str "u2"), ("width", .int 1), ("height", .int 1)]]
        ∧ best_thumbnail (.obj [("thumbnails",
            .list [JVal.obj [("url", .str "u1"), ("width", .int 2), ("height", .int 3)],
                   JVal.obj [("url", .str "u2"), ("width", .int 1), ("height", .int 1)]])])
            = jgetD t "url" (.str "")
        ∧ ∀ u ∈ [JVal.obj [("url", .str "u1"), ("width", .int 2), ("height", .int 3)],
                 JVal.obj [("url", .str "u2"), ("width", .int 1), ("height", .int 1)]],
            area u ≤ area t :=
  ⟨(C8_best_thumbnail []).1 rfl,
   (C8_best_thumbnail _).2 (by simp)⟩

/-- C1: evaluation of the batch loop at the failing input. Two tasks are
queued; the flat fetch succeeds with a three-entry playlist and a
cancellation signal arrives in the first task at enrichment iteration 2,
after one entry has been enriched (the stopped enrichment output holds
exactly that one entry). The run then saves nothing, reports nothing and
counts zero successes: the break in the KeyboardInterrupt handler leaves
the task loop before the save step, contradicting the claimed (and
printed) saving of the partial set; only the final part of the claim,
that no subsequent task is processed, is accurate. -/
theorem C1_interrupt_skips_save :
    (enrichGo c1Oracles.deep (some 2) 1 (rawEntriesList c1Playlist)).entries.length = 1
    ∧ (enrichGo c1Oracles.deep (some 2) 1 (rawEntriesList c1Playlist)).stopped = true
    ∧ (runBatch false c1Oracles (some (0, 2)) [("A", "PL1"), ("B", "PL2")]).saved = []
    ∧ (runBatch false c1Oracles (some (0, 2)) [("A", "PL1"), ("B", "PL2")]).reports = []
    ∧ (runBatch false c1Oracles (some (0, 2)) [("A", "PL1"), ("B", "PL2")]).totalSaved = 0 :=
  ⟨rfl, rfl, rfl, rfl, rfl⟩

/-- C2: evaluation of a fast-mode run at the failing input. The saved
JSON is clean_dict of the flat record: the single entry keeps its
non-empty tags and categories and has no fulltitle key at all, while
the unused minimize_playlist applied to the same record would have
produced the claimed shape (empty tags, fulltitle equal to title). -/
theorem C2_fast_mode_keeps_flat_fields :
    (runBatch true c2Oracles none [("A", "PL1")]).saved = [("PL1", cleanDict c2Playlist)]
    ∧ (runBatch true c2Oracles none [("A", "PL1")]).totalSaved = 1
    ∧ jfind (firstEntry (cleanDict c2Playlist)) "tags" = some (.list [.str "x"])
    ∧ jfind (firstEntry (cleanDict c2Playlist)) "categories" = some (.list [.str "c"])
    ∧ jfind (firstEntry (cleanDict c2Playlist)) "fulltitle" = none
    ∧ jfind (firstEntry (minimize_playlist c2Playlist)) "tags" = some (.list [])
    ∧ jfind (firstEntry (minimize_playlist c2Playlist)) "categories" = some (.list [])
    ∧ jfind (firstEntry (minimize_playlist c2Playlist)) "fulltitle"
        = jfind (firstEntry (minimize_playlist c2Playlist)) "title" :=
  ⟨rfl, rfl, rfl, rfl, rfl, rfl, rfl, rfl⟩

/-- Counterexample for C6 as stated: the serializer keeps an empty
description and a None title (so absent and empty values are not
omitted from the serialized form), and minimization drops an empty,
non-None raw entry (so more than the None entries are dropped). -/
theorem C6_counterexample :
    jfind (cleanDict c6bad) "description" = some (.str "")
    ∧ jfind (cleanDict c6bad) "title" = some .null
    ∧ minimizedEntries (JVal.obj [("entries", JVal.list [JVal.obj []])]) = [] :=
  ⟨rfl, rfl, rfl⟩

/-- Counterexample for C7 as stated: an entry with neither id nor url is
never deep-fetched (the fetch log of the loop is empty) and is kept
unchanged, even though the deep oracle would have returned a record with
a non-empty description. -/
theorem C7_counterexample :
    (enrichGo richDeep none 1 [noVidEntry]).fetched = []
    ∧ (enrichGo richDeep none 1 [noVidEntry]).entries = [noVidEntry] :=
  ⟨rfl, rfl⟩

/-- C7, corrected: without a cancellation signal the enrichment loop
never stops early and agrees with the specification-side functions:
every entry with a truthy id-or-url fetch key is deep-fetched (in
order) and replaced by the deep record exactly when that record is
truthy with a truthy description; entries without a fetch key are kept
unchanged without a fetch; and a progress notice is printed exactly at
the indices divisible by 25 whose entry had a fetch key. -/
theorem C7_enrichment_characterization (deep : JVal → JVal) (entries : List JVal) :
    ∀ idx : Nat,
      enrichGo deep none idx entries
        = ⟨specEnriched deep entries, specFetched entries, specPrinted idx entries, false⟩ := by
  induction entries with
  | nil =>
    intro idx
    rfl
  | cons e es ih =>
    intro idx
    simp only [enrichGo, specEnriched, specFetched, specPrinted, List.map_cons,
      List.filterMap_cons]
    rw [if_neg (by simp : ¬ (none : Option Nat) = some idx)]
    by_cases hv : truthy (entryVid e)
    · simp only [hv, Bool.not_true, Bool.false_eq_true, if_false, ih (idx + 1),
        Bool.true_and]
      by_cases hm : idx % 25 = 0
      · simp [hm, specEnriched, specFetched]
      · simp [hm, specEnriched, specFetched]
    · simp [hv, ih (idx + 1), specEnriched, specFetched]

/-- Dropping None-valued fields leaves no None-valued field. -/
theorem dropNullFields_noNull (kvs : List (String × JVal)) :
    (dropNullFields kvs).all (fun kv => !(isNull kv.2)) = true := by
  rw [List.all_eq_true]
  intro kv hkv
  have h := List.mem_filter.mp hkv
  simpa using h.2

/-- The thumbnail branch only ever emits the thumbnail key. -/
theorem cleanThumb_keys (v : JVal) :
    (cleanThumb v).all (fun kv => allowedFields.contains kv.1) = true := by
  cases v with
  | list xs =>
    cases xs with
    | nil => rfl
    | cons t ts => simp [cleanThumb]; decide
  | null => rfl
  | bool b => rfl
  | int i => rfl
  | str s => rfl
  | obj kvs => rfl

/-- Every key emitted by the field loop of clean_dict is allow-listed. -/
theorem cleanFields_keys (kvs : List (String × JVal)) :
    (cleanFields kvs).all (fun kv => allowedFields.contains kv.1) = true := by
  induction kvs with
  | nil => rfl
  | cons kv rest ih =>
    obtain ⟨k, v⟩ := kv
    rw [List.all_eq_true] at ih ⊢
    intro x hx
    simp only [cleanFields] at hx
    by_cases h1 : k ∈ allowedFields
    · rw [if_pos h1] at hx
      by_cases h2 : k = "entries" ∧ truthy v = true
      · rw [if_pos h2] at hx
        rcases List.mem_cons.mp hx with rfl | hx
        · simpa using h1
        · exact ih x hx
      · rw [if_neg h2] at hx
        by_cases h3 : k = "thumbnail" ∧ isListV v = true
        · rw [if_pos h3] at hx
          rcases List.mem_append.mp hx with hx | hx
          · have h4 := cleanThumb_keys v
            rw [List.all_eq_true] at h4
            exact h4 x hx
          · exact ih x hx
        · rw [if_neg h3] at hx
          rcases List.mem_cons.mp hx with rfl | hx
          · simpa using h1
          · exact ih x hx
    · rw [if_neg h1] at hx
      exact ih x hx

/-- clean_dict output records carry only allow-listed keys at the top
level. -/
theorem cleanDict_topAllowed (e : JVal) : allowedTopKeys (cleanDict e) = true := by
  cases e with
  | obj kvs =>
    simp only [cleanDict, allowedTopKeys]
    exact cleanFields_keys kvs
  | null => rfl
  | bool b => rfl
  | int i => rfl
  | str s => rfl
  | list xs => rfl

/-- Every record produced by the entries comprehension of clean_dict
carries only allow-listed keys. -/
theorem cleanList_topAllowed (xs : List JVal) :
    (cleanList xs).all allowedTopKeys = true := by
  induction xs with
  | nil => rfl
  | cons e es ih =>
    by_cases h : truthy e <;>
      simp [cleanList, h, ih, cleanDict_topAllowed, List.all_append]

/-- The thumbnail branch never emits the entries key, so lookups for it
skip over that branch. -/
theorem lookupKV_cleanThumb (v : JVal) (l : List (String × JVal)) :
    lookupKV (cleanThumb v ++ l) "entries" = lookupKV l "entries" := by
  cases v with
  | list xs =>
    cases xs with
    | nil => rfl
    | cons t ts =>
      simp only [cleanThumb, List.cons_append, List.nil_append, lookupKV]
      rw [if_neg (by decide)]
      simp
  | null => rfl
  | bool b => rfl
  | int i => rfl
  | str s => rfl
  | obj kvs => rfl

/-- The value the field loop of clean_dict leaves under the entries key
is, when it is a list, a list of records with allow-listed keys. -/
theorem cleanFields_entriesVal (kvs : List (String × JVal)) :
    entriesValOK (lookupKV (cleanFields kvs) "entries") := by
  induction kvs with
  | nil => trivial
  | cons kv rest ih =>
    obtain ⟨k, v⟩ := kv
    simp only [cleanFields]
    by_cases h1 : k ∈ allowedFields
    · rw [if_pos h1]
      by_cases h2 : k = "entries" ∧ truthy v = true
      · rw [if_pos h2]
        obtain ⟨rfl, h3⟩ := h2
        simp only [lookupKV, if_pos rfl]
        cases v with
        | list xs => simpa [cleanEntriesVal, entriesValOK] using cleanList_topAllowed xs
        | null => trivial
        | bool b => trivial
        | int i => trivial
        | str s => trivial
        | obj kvs2 => trivial
      · rw [if_neg h2]
        by_cases h3 : k = "thumbnail" ∧ isListV v = true
        · rw [if_pos h3]
          rw [lookupKV_cleanThumb]
          exact ih
        · rw [if_neg h3]
          by_cases h4 : k = "entries"
          · subst h4
            have h5 : ¬ truthy v = true := fun hv => h2 ⟨rfl, hv⟩
            simp only [lookupKV, if_pos rfl]
            cases v with
            | list xs =>
              cases xs with
              | nil => exact rfl
              | cons a l => simp [truthy] at h5
            | null => trivial
            | bool b => trivial
            | int i => trivial
            | str s => trivial
            | obj kvs2 => trivial
          · simp only [lookupKV, if_neg h4]
            exact ih
    · rw [if_neg h1]
      exact ih

/-- C6, corrected: minimize_playlist emits no None-valued field at the
playlist level or inside any minimized entry; its entry loop keeps
exactly the truthy raw entries (so None entries are dropped, but so is
any other falsy entry such as an empty record) in source order; and the
serializer clean_dict restricts the playlist record and every entry
record to the allow-listed field set, while passing values, including
None and empty ones, through unchanged. -/
theorem C6_minimization_invariants (info v : JVal) :
    objNoNull (minimize_playlist info) = true
    ∧ (minimizedEntries info).all objNoNull = true
    ∧ ((rawEntriesList info).filter truthy).Sublist (rawEntriesList info)
    ∧ minimizedEntries info
        = ((rawEntriesList info).filter truthy).map
            (fun e => JVal.obj (dropNullFields (minimizeFastEntryFields e)))
    ∧ allowedTopKeys (cleanDict v) = true
    ∧ entriesValOK (jfind (cleanDict v) "entries") := by
  refine ⟨?_, ?_, List.filter_sublist _, rfl, cleanDict_topAllowed v, ?_⟩
  · simp only [minimize_playlist, objNoNull]
    exact dropNullFields_noNull _
  · rw [List.all_eq_true]
    intro x hx
    simp only [minimizedEntries, List.mem_map] at hx
    obtain ⟨e, _, rfl⟩ := hx
    simp only [objNoNull]
    exact dropNullFields_noNull _
  · cases v with
    | obj kvs => simpa [cleanDict, jfind] using cleanFields_entriesVal kvs
    | null => trivial
    | bool b => trivial
    | int i => trivial
    | str s => trivial
    | list xs => trivial

/-- A successful split at the first equals sign requires an equals sign
in the line. -/
theorem mem_of_splitAtFirstEq (cs : List Char) :
    ∀ a b, splitAtFirstEq cs = some (a, b) → '=' ∈ cs := by
  induction cs with
  | nil =>
    intro a b h
    simp [splitAtFirstEq] at h
  | cons c cs ih =>
    intro a b h
    by_cases hc : c = '='
    · subst hc
      exact List.mem_cons_self _ _
    · simp only [splitAtFirstEq, if_neg hc] at h
      cases hsp : splitAtFirstEq cs with
      | none => rw [hsp] at h; simp at h
      | some p => exact List.mem_cons_of_mem _ (ih p.1 p.2 (by rw [hsp]))

/-- A line without an equals sign never matches the playlist pattern. -/
theorem rePlaylistLineMatch_no_eq (cs : List Char) (h : '=' ∉ cs) :
    rePlaylistLineMatch cs = none := by
  unfold rePlaylistLineMatch
  cases hsp : splitAtFirstEq cs with
  | none => rfl
  | some p => exact absurd (mem_of_splitAtFirstEq cs p.1 p.2 (by rw [hsp])) h

/-- A line that starts with a hash never matches the playlist pattern
(its name group would contain the hash). -/
theorem rePlaylistLineMatch_hash (cs : List Char) :
    rePlaylistLineMatch ('#' :: cs) = none := by
  unfold rePlaylistLineMatch
  simp only [splitAtFirstEq]
  rw [if_neg (by decide : ¬ ('#' : Char) = '=')]
  cases hsp : splitAtFirstEq cs with
  | none => rfl
  | some p =>
    obtain ⟨a, b⟩ := p
    by_cases he : (stripChars ('#' :: a)).isEmpty
    · simp [he]
    · simp [he]

/-- One-step unfolding of the section body. -/
theorem specSection_cons (raw : String) (rest : List String) :
    specSection (raw :: rest)
      = if isStopLine raw then []
        else
          match rePlaylistLineMatch (lineOf raw) with
          | some p => p :: specSection rest
          | none => specSection rest := by
  by_cases h : isStopLine raw
  · simp [specSection, List.takeWhile_cons, h]
  · simp only [specSection, List.takeWhile_cons, h, Bool.not_false, if_true, List.filterMap_cons]
    rw [if_neg (by simp [h])]
    cases rePlaylistLineMatch (lineOf raw) <;> simp

/-- The in-section loop of the parser agrees with the specification-side
section body. -/
theorem parseGo_true_eq (doc : List String) : parseGo true doc = specSection doc := by
  induction doc with
  | nil => rfl
  | cons raw rest ih =>
    rw [specSection_cons]
    simp only [parseGo]
    by_cases h1 : lowerChars (lineOf raw) = hdrChars
    · have hH : isHeaderLine raw = true := by simp [isHeaderLine, h1]
      have hstop : isStopLine raw = false := by simp [isStopLine, hH]
      have hnone : rePlaylistLineMatch (lineOf raw) = none := by
        apply rePlaylistLineMatch_no_eq
        intro hmem
        have h2 := List.mem_map_of_mem Char.toLower hmem
        have h3 : ('=' : Char) ∈ lowerChars (lineOf raw) := by
          simpa [lowerChars] using h2
        rw [h1] at h3
        revert h3
        decide
      rw [if_pos h1, if_neg (show ¬ (isStopLine raw = true) by simp [hstop]), hnone]
      exact ih
    · have hH : isHeaderLine raw = false := by simp [isHeaderLine, h1]
      rw [if_neg h1, if_neg (show ¬ ((!true) = true) by decide)]
      by_cases h2 : startsWithChars hashSpace (lineOf raw) = true
      · have hstop : isStopLine raw = true := by simp [isStopLine, hH, h2]
        rw [if_pos h2, if_pos hstop]
      · have hs : startsWithChars hashSpace (lineOf raw) = false := by
          simpa using h2
        have hstop : isStopLine raw = false := by simp [isStopLine, hs]
        rw [if_neg h2, if_neg (show ¬ (isStopLine raw = true) by simp [hstop])]
        by_cases h3 : lineOf raw = []
        · have hnone : rePlaylistLineMatch (lineOf raw) = none := by
            rw [h3]
            rfl
          rw [if_pos h3, hnone]
          exact ih
        · rw [if_neg h3]
          by_cases h4 : headOrSpace (lineOf raw) = '#'
          · have hnone : rePlaylistLineMatch (lineOf raw) = none := by
              cases hline : lineOf raw with
              | nil => exact absurd hline h3
              | cons c cs =>
                rw [hline] at h4
                simp only [headOrSpace] at h4
                subst h4
                exact rePlaylistLineMatch_hash cs
            rw [if_pos h4, hnone]
            exact ih
          · rw [if_neg h4]
            cases hm : rePlaylistLineMatch (lineOf raw) with
            | none => exact ih
            | some p =>
              rw [ih]

/-- The parser agrees with the specification-side parse on every
document. -/
theorem parseGo_false_eq (doc : List String) :
    parseGo false doc = specParsePlaylists doc := by
  induction doc with
  | nil => rfl
  | cons raw rest ih =>
    simp only [parseGo]
    by_cases h1 : lowerChars (lineOf raw) = hdrChars
    · have hH : isHeaderLine raw = true := by simp [isHeaderLine, h1]
      rw [if_pos h1, parseGo_true_eq rest]
      simp [specParsePlaylists, List.dropWhile_cons, hH]
    · have hH : isHeaderLine raw = false := by simp [isHeaderLine, h1]
      rw [if_neg h1, if_pos (by decide), ih]
      simp [specParsePlaylists, List.dropWhile_cons, hH]

/-- C5, corrected: on every document the parser returns exactly the
matching name = id pairs, in source order, of the lines between the
first section marker and the next top-level header that is not itself a
(case-insensitive) section marker, or end of file; and on the worked
example document it returns exactly the two claimed pairs, stopping
before the Other section. -/
theorem C5_config_parsing :
    (∀ doc, parse_playlists_from_requirements_md doc = specParsePlaylists doc)
    ∧ parse_playlists_from_requirements_md c5exampleDoc
        = [("AEC", "PL123"), ("PhD Research (assorted)", "PL456")] := by
  refine ⟨fun doc => parseGo_false_eq doc, ?_⟩
  decide

/-- Counterexample for C5 as stated: on a document whose Playlists
section contains a second, differently-cased section marker, the source
keeps parsing past it (its break condition exempts the marker), while
the claim reading (stop at the next line prefixed by hash and space)
stops there: the two results differ. -/
theorem C5_counterexample :
    parse_playlists_from_requirements_md c5doc = [("A", "PL1"), ("B", "PL2")]
    ∧ claimParsePlaylists c5doc = [("A", "PL1")]
    ∧ parse_playlists_from_requirements_md c5doc ≠ claimParsePlaylists c5doc := by
  refine ⟨by decide, by decide, by decide⟩
